import Mathlib

/-!
Shallow embedding of the window-function catalog
(`src/notebooks/window/window.py`) and of the comparison utility
(`src/notebooks/window/compare.py`).

Numpy/Python conventions that matter to the embedding:
* `np.arange N` is the empty list for `N ≤ 0`, else `[0, …, N-1]`;
* `np.ones N` / `np.zeros N` raise `ValueError` for `N < 0` (modelled as `none`);
* `w[i] = v` on an array supports negative-index wrap-around and raises
  `IndexError` when out of bounds (modelled as `none`);
* Python `//` on integers is floor division (`Int.fdiv`);
* a boolean used in arithmetic (`N - sym`) is coerced to `0`/`1`;
* masked assignments such as `w[mask] = 1` are written element-wise, which is
  observationally identical because a masked write only replaces the entries
  where the mask holds;
* real (`ℝ`) arithmetic stands for IEEE double arithmetic; for the one claim
  about division by zero producing a non-finite value, a division that tracks
  finiteness (`fdivF`) is used instead, since `ℝ` has no NaN/Inf.
-/

open Real

namespace Fourier

noncomputable section

/-- np.arange: the integer sample indices `0, 1, ..., N-1`; empty when `N ≤ 0`. -/
def arange (N : ℤ) : List ℤ := (List.range N.toNat).map Int.ofNat

/-- Python coercion of a boolean into arithmetic (`N - sym`, `N + (not sym)`). -/
def pyInt (b : Bool) : ℤ := if b then 1 else 0

/-- Python array single-element assignment `xs[i] = v`: negative indices wrap
around; an out-of-bounds index raises `IndexError`, modelled as `none`. -/
def pySet (xs : List ℝ) (i : ℤ) (v : ℝ) : Option (List ℝ) :=
  let j : ℤ := if i < 0 then i + xs.length else i
  if 0 ≤ j ∧ j < (xs.length : ℤ) then some (xs.set j.toNat v) else none

/-- The length reassignment `N = N - 1 if sym else N` shared by the
additive-form generators. -/
def effAdd (N : ℤ) (sym : Bool) : ℤ := if sym then N - 1 else N

/-- window.boxcar: `np.ones(N)`; `np.ones` raises `ValueError` for `N < 0`. -/
def boxcar (N : ℤ) (_sym : Bool) : Option (List ℝ) :=
  if N < 0 then none else some (List.replicate N.toNat 1)

/-- Sample formula of window.bartlett at resolved length `M`. -/
def bartlettF (M : ℤ) (n : ℤ) : ℝ :=
  (2.0 / (M : ℝ)) * (((M : ℝ) / 2) - |(n : ℝ) - (M : ℝ) / 2|)

/-- window.bartlett. -/
def bartlett (N : ℤ) (sym : Bool) : List ℝ := (arange N).map (bartlettF (effAdd N sym))

/-- Sample formula of window.barthann at resolved length `M`. -/
def barthannF (M : ℤ) (n : ℤ) : ℝ :=
  0.62 - 0.48 * |(n : ℝ) / (M : ℝ) - 0.5| - 0.38 * Real.cos (2 * π * (n : ℝ) / (M : ℝ))

/-- window.barthann. -/
def barthann (N : ℤ) (sym : Bool) : List ℝ := (arange N).map (barthannF (effAdd N sym))

/-- Sample formula of window.parzen: `t` is `n` mapped into `[-1, 1]` by the
denominator `N - sym`; the two masked writes partition the indices by
`|t| < 1/2`, written element-wise over the `np.zeros` base array. -/
def parzenF (M : ℤ) (n : ℤ) : ℝ :=
  let t : ℝ := 2 * (n : ℝ) / (M : ℝ) - 1
  if |t| < 1 / 2 then 1 - 6 * t ^ 2 + 6 * |t| ^ 3 else 2 * (1 - |t|) ^ 3

/-- window.parzen: `np.zeros(N)` raises `ValueError` for `N < 0`. -/
def parzen (N : ℤ) (sym : Bool) : Option (List ℝ) :=
  if N < 0 then none else some ((arange N).map (parzenF (N - pyInt sym)))

/-- Sample formula of window.welch (the symmetry flag enters the arithmetic
directly as `N - 1 - sym` and `N + 1 - sym`). -/
def welchF (N : ℤ) (sym : Bool) (n : ℤ) : ℝ :=
  1 - (((n : ℝ) - ((N - 1 - pyInt sym : ℤ) : ℝ) / 2) / (((N + 1 - pyInt sym : ℤ) : ℝ) / 2)) ^ 2

/-- window.welch. -/
def welch (N : ℤ) (sym : Bool) : List ℝ := (arange N).map (welchF N sym)

/-- Sample formula of window.cosine at resolved length `M = N + (not sym)`. -/
def cosineF (M : ℤ) (n : ℤ) : ℝ := Real.sin (π * ((n : ℝ) + 0.5) / (M : ℝ))

/-- window.cosine. -/
def cosine (N : ℤ) (sym : Bool) : List ℝ := (arange N).map (cosineF (N + pyInt (!sym)))

/-- Sample formula of window.bohman at resolved half length `M` (a real,
`(N - 1 if sym else N) / 2` under Python float division). -/
def bohmanF (M : ℝ) (n : ℤ) : ℝ :=
  (1 - |(n : ℝ) / M - 1|) * Real.cos (π * |(n : ℝ) / M - 1|)
    + (1.0 / π) * Real.sin (π * |(n : ℝ) / M - 1|)

/-- window.bohman. -/
def bohman (N : ℤ) (sym : Bool) : List ℝ :=
  (arange N).map (bohmanF (((effAdd N sym : ℤ) : ℝ) / 2))

/-- Sample formula of window.lanczos before the centre-tap override: a sinc
with an epsilon-guarded divisor. -/
def lanczosF (M : ℤ) (n : ℤ) : ℝ :=
  let w : ℝ := π * (2 * (n : ℝ) / (M : ℝ) - 1)
  Real.sin w / (w + 1e-12)

/-- window.lanczos: the centre tap is overwritten by `w[N//2] = 1` (Python
floor division on the reassigned `N`; `IndexError` modelled as `none`). -/
def lanczos (N : ℤ) (sym : Bool) : Option (List ℝ) :=
  pySet ((arange N).map (lanczosF (effAdd N sym))) (Int.fdiv (effAdd N sym) 2) 1

/-- Sample formula of window.hann at resolved length `M`. -/
def hannF (M : ℤ) (n : ℤ) : ℝ := 0.50 - 0.50 * Real.cos (2 * π * (n : ℝ) / (M : ℝ))

/-- window.hann. -/
def hann (N : ℤ) (sym : Bool) : List ℝ := (arange N).map (hannF (effAdd N sym))

/-- Sample formula of window.hamming at resolved length `M`. -/
def hammingF (M : ℤ) (n : ℤ) : ℝ := 0.54 - 0.46 * Real.cos (2 * π * (n : ℝ) / (M : ℝ))

/-- window.hamming. -/
def hamming (N : ℤ) (sym : Bool) : List ℝ := (arange N).map (hammingF (effAdd N sym))

/-- Sample formula of window.blackman at resolved length `M`. -/
def blackmanF (M : ℤ) (n : ℤ) : ℝ :=
  0.42 - 0.50 * Real.cos (2 * π * (n : ℝ) / (M : ℝ)) + 0.08 * Real.cos (4 * π * (n : ℝ) / (M : ℝ))

/-- window.blackman. -/
def blackman (N : ℤ) (sym : Bool) : List ℝ := (arange N).map (blackmanF (effAdd N sym))

/-- Sample formula of window.blackmanharris at resolved length `M`. -/
def blackmanharrisF (M : ℤ) (n : ℤ) : ℝ :=
  0.35875 - 0.48829 * Real.cos (2 * π * (n : ℝ) / (M : ℝ))
    + 0.14128 * Real.cos (4 * π * (n : ℝ) / (M : ℝ))
    - 0.01168 * Real.cos (6 * π * (n : ℝ) / (M : ℝ))

/-- window.blackmanharris. -/
def blackmanharris (N : ℤ) (sym : Bool) : List ℝ :=
  (arange N).map (blackmanharrisF (effAdd N sym))

/-- Sample formula of window.blackmannuttall at resolved length `M`. -/
def blackmannuttallF (M : ℤ) (n : ℤ) : ℝ :=
  0.3635819 - 0.4891775 * Real.cos (2 * π * (n : ℝ) / (M : ℝ))
    + 0.1365995 * Real.cos (4 * π * (n : ℝ) / (M : ℝ))
    - 0.0106411 * Real.cos (6 * π * (n : ℝ) / (M : ℝ))

/-- window.blackmannuttall. -/
def blackmannuttall (N : ℤ) (sym : Bool) : List ℝ :=
  (arange N).map (blackmannuttallF (effAdd N sym))

/-- Sample formula of window.kaiserbessel at resolved length `M = N - sym`. -/
def kaiserbesselF (M : ℤ) (n : ℤ) : ℝ :=
  0.402 - 0.498 * Real.cos (2 * π * (n : ℝ) / (M : ℝ))
    + 0.098 * Real.cos (4 * π * (n : ℝ) / (M : ℝ))
    - 0.001 * Real.cos (6 * π * (n : ℝ) / (M : ℝ))

/-- window.kaiserbessel: the source has no usable default for `sym` (its
default `None` makes `N - sym` raise), so the flag is a required argument. -/
def kaiserbessel (N : ℤ) (sym : Bool) : List ℝ := (arange N).map (kaiserbesselF (N - pyInt sym))

/-- Sample formula of window.flattop at resolved length `M`. -/
def flattopF (M : ℤ) (n : ℤ) : ℝ :=
  0.21557895 - 0.416631580 * Real.cos (2 * π * (n : ℝ) / (M : ℝ))
    + 0.277263158 * Real.cos (4 * π * (n : ℝ) / (M : ℝ))
    - 0.083578947 * Real.cos (6 * π * (n : ℝ) / (M : ℝ))
    + 0.006947368 * Real.cos (8 * π * (n : ℝ) / (M : ℝ))

/-- window.flattop. -/
def flattop (N : ℤ) (sym : Bool) : List ℝ := (arange N).map (flattopF (effAdd N sym))

/-- Sample formula of window.exponential at resolved half length `M`. -/
def exponentialF (alpha : ℝ) (M : ℝ) (n : ℤ) : ℝ := Real.exp (-alpha * |(n : ℝ) - M| / M)

/-- window.exponential (Poisson); `alpha` defaults to `1.0` at call sites. -/
def exponential (N : ℤ) (sym : Bool) (alpha : ℝ) : List ℝ :=
  (arange N).map (exponentialF alpha (((effAdd N sym : ℤ) : ℝ) / 2))

/-- Sample formula of window.gaussian at resolved half length `M`. -/
def gaussianF (std : ℝ) (M : ℝ) (n : ℤ) : ℝ :=
  Real.exp (-0.5 * (((n : ℝ) - M) / (std * M)) ^ 2)

/-- window.gaussian; `std` defaults to `0.25` at call sites. -/
def gaussian (N : ℤ) (sym : Bool) (std : ℝ) : List ℝ :=
  (arange N).map (gaussianF std (((effAdd N sym : ℤ) : ℝ) / 2))

/-- Sample formula of window.hannpoisson at resolved half length `M`. -/
def hannpoissonF (alpha : ℝ) (M : ℝ) (n : ℤ) : ℝ :=
  0.5 * (1 - Real.cos (π * (n : ℝ) / M)) * Real.exp (-alpha * |(n : ℝ) - M| / M)

/-- window.hannpoisson; `alpha` defaults to `1.0` at call sites. -/
def hannpoisson (N : ℤ) (sym : Bool) (alpha : ℝ) : List ℝ :=
  (arange N).map (hannpoissonF alpha (((effAdd N sym : ℤ) : ℝ) / 2))

/-- Sample formula of window.tukey at resolved half length `M`: the masked
write `w[abs(n - N) < alpha * N] = 1` overwrites the taper exactly on the
indices satisfying the mask, written element-wise. -/
def tukeyF (alpha : ℝ) (M : ℝ) (n : ℤ) : ℝ :=
  if |(n : ℝ) - M| < alpha * M then 1
  else 0.5 * (1 + Real.cos (π * (|(n : ℝ) - M| - alpha * M) / ((1 - alpha) * M)))

/-- window.tukey; `alpha` defaults to `0.5` at call sites. -/
def tukey (N : ℤ) (sym : Bool) (alpha : ℝ) : List ℝ :=
  (arange N).map (tukeyF alpha (((effAdd N sym : ℤ) : ℝ) / 2))

/-- Division with finiteness tracked: IEEE division by a zero denominator
yields a non-finite value (NaN or ±Inf), modelled as `none`. -/
def fdivF (a b : ℝ) : Option ℝ := if b = 0 then none else some (a / b)

/-- window.hann with the finiteness of its division tracked (`none` stands
for a non-finite sample); `Real.cos` of a finite value is finite. -/
def hannIEEE (N : ℤ) (sym : Bool) : List (Option ℝ) :=
  (arange N).map fun n =>
    (fdivF (2 * π * (n : ℝ)) ((effAdd N sym : ℤ) : ℝ)).map fun q => 0.50 - 0.50 * Real.cos q

/-- compare.compare: evaluates the test generator, then the reference
generator, at the same `(N, sym)`, and returns the pair (plotting elided). -/
def compare (N : ℤ) (windowTest windowReference : ℤ → Bool → Option (List ℝ)) (sym : Bool) :
    Option (List ℝ) × Option (List ℝ) :=
  let test := windowTest N sym
  let reference := windowReference N sym
  (test, reference)

/-- The window catalog (`__all__` of window.py), each family taken at its
documented default shape parameters, with the totally-defined generators
wrapped in `some` to share the fallible generators' signature. -/
def catalog : List (ℤ → Bool → Option (List ℝ)) :=
  [boxcar,
   fun N sym => some (bartlett N sym),
   fun N sym => some (barthann N sym),
   parzen,
   fun N sym => some (welch N sym),
   fun N sym => some (cosine N sym),
   fun N sym => some (bohman N sym),
   lanczos,
   fun N sym => some (hann N sym),
   fun N sym => some (hamming N sym),
   fun N sym => some (blackman N sym),
   fun N sym => some (blackmanharris N sym),
   fun N sym => some (blackmannuttall N sym),
   fun N sym => some (kaiserbessel N sym),
   fun N sym => some (flattop N sym),
   fun N sym => some (exponential N sym 1.0),
   fun N sym => some (gaussian N sym 0.25),
   fun N sym => some (hannpoisson N sym 1.0),
   fun N sym => some (tukey N sym 0.5)]

/-- The catalog without Welch and Lanczos (the two families whose symmetric
output is not a palindrome). -/
def palindromicFamilies : List (ℤ → Bool → Option (List ℝ)) :=
  [boxcar,
   fun N sym => some (bartlett N sym),
   fun N sym => some (barthann N sym),
   parzen,
   fun N sym => some (cosine N sym),
   fun N sym => some (bohman N sym),
   fun N sym => some (hann N sym),
   fun N sym => some (hamming N sym),
   fun N sym => some (blackman N sym),
   fun N sym => some (blackmanharris N sym),
   fun N sym => some (blackmannuttall N sym),
   fun N sym => some (kaiserbessel N sym),
   fun N sym => some (flattop N sym),
   fun N sym => some (exponential N sym 1.0),
   fun N sym => some (gaussian N sym 0.25),
   fun N sym => some (hannpoisson N sym 1.0),
   fun N sym => some (tukey N sym 0.5)]

/-- A sample sequence read the way the spec indexes it: `w[n] = w[N-1-n]`. -/
def isPalindrome (w : List ℝ) : Prop :=
  ∀ i : ℕ, i < w.length → w[i]? = w[w.length - 1 - i]?

end

/-! Basic facts about the embedding's primitives. -/

theorem length_arange (N : ℤ) : (arange N).length = N.toNat := by
  simp [arange]

theorem arange_succ {N : ℤ} (h : 0 ≤ N) : arange (N + 1) = arange N ++ [N] := by
  unfold arange
  rw [show (N + 1).toNat = N.toNat + 1 by omega, List.range_succ, List.map_append]
  simp [Int.toNat_of_nonneg h]

theorem map_arange_take {f : ℤ → ℝ} {N : ℤ} (h : 0 ≤ N) :
    ((arange (N + 1)).map f).take N.toNat = (arange N).map f := by
  rw [arange_succ h, List.map_append]
  exact List.take_left' (by simp [length_arange])

theorem getElem?_map_arange {f : ℤ → ℝ} {N : ℤ} {i : ℕ} (h : (i : ℤ) < N) :
    ((arange N).map f)[i]? = some (f i) := by
  have hi : i < N.toNat := by omega
  simp [arange, List.getElem?_range hi]

theorem effAdd_true (N : ℤ) : effAdd N true = N - 1 := rfl

theorem effAdd_false (N : ℤ) : effAdd N false = N := rfl

theorem pyInt_true : pyInt true = 1 := rfl

theorem pyInt_false : pyInt false = 0 := rfl

theorem pySet_eq_some {xs : List ℝ} {i : ℤ} (v : ℝ) (h0 : 0 ≤ i) (h1 : i < (xs.length : ℤ)) :
    pySet xs i v = some (xs.set i.toNat v) := by
  unfold pySet
  simp only [if_neg (not_lt.2 h0)]
  exact if_pos ⟨h0, h1⟩

theorem isPalindrome_map_arange {f : ℤ → ℝ} {N : ℤ}
    (hf : ∀ n : ℤ, 0 ≤ n → n < N → f n = f (N - 1 - n)) :
    isPalindrome ((arange N).map f) := by
  intro i hi
  rw [List.length_map, length_arange] at hi
  have hiN : (i : ℤ) < N := by omega
  have hjN : ((N.toNat - 1 - i : ℕ) : ℤ) < N := by omega
  rw [List.length_map, length_arange, getElem?_map_arange hiN, getElem?_map_arange hjN]
  rw [hf i (by omega) hiN, show ((N.toNat - 1 - i : ℕ) : ℤ) = N - 1 - i by omega]

/-- C1: the claim that every family returns a sequence of length `max(N, 0)`
for every `N` (empty for `N ≤ 0`) fails: `lanczos(0, sym=False)` executes
`w[0] = 1` on the empty array, an `IndexError` instead of an empty sequence. -/
theorem lanczos_zero_raises : lanczos 0 false = none := rfl

/-- C4: for the Lanczos window in periodic mode, the sample at the centre
index `N // 2` is exactly 1, forced by the explicit override `w[N//2] = 1`. -/
theorem lanczos_center_tap (N : ℤ) (h : 1 ≤ N) :
    (lanczos N false).bind (fun w => w[(Int.fdiv N 2).toNat]?) = some 1 := by
  unfold lanczos
  rw [effAdd_false]
  have hlen : ((((arange N).map (lanczosF N)).length : ℕ) : ℤ) = N := by
    rw [List.length_map, length_arange]; omega
  have h0 : 0 ≤ Int.fdiv N 2 := Int.fdiv_nonneg (by omega) (by norm_num)
  have h2 : Int.fdiv N 2 < N := by
    rw [Int.fdiv_eq_ediv _ (by norm_num)]; omega
  rw [pySet_eq_some 1 h0 (by omega), Option.some_bind]
  exact List.getElem?_set_self (by omega)

/-- C4 witness at `N = 5`: the centre tap `5 // 2 = 2` of the periodic
Lanczos window is exactly 1. -/
theorem lanczos_center_tap_witness :
    (lanczos 5 false).bind (fun w => w[(Int.fdiv (5 : ℤ) 2).toNat]?) = some 1 :=
  lanczos_center_tap 5 (by norm_num)

/-- C5: the claim that every call completes and returns a sequence (failures
only ever surfacing as non-finite values) fails: `boxcar(-1)` calls
`np.ones(-1)`, which raises `ValueError: negative dimensions are not allowed`. -/
theorem boxcar_negative_raises : boxcar (-1) true = none := rfl

/-- C9: `compare` invokes both window generators at the same `(N, sym)` and
returns the pair of sequences, the test sequence first. -/
theorem compare_returns_both (N : ℤ) (windowTest windowReference : ℤ → Bool → Option (List ℝ))
    (sym : Bool) :
    compare N windowTest windowReference sym = (windowTest N sym, windowReference N sym) := rfl

/-- C10: the Boxcar generator ignores the symmetry flag: for `N ≥ 0` any two
flag values give the same output, the all-ones sequence of length `N`. -/
theorem boxcar_ignores_sym (N : ℤ) (h : 0 ≤ N) (b₁ b₂ : Bool) :
    boxcar N b₁ = boxcar N b₂ ∧ boxcar N b₁ = some (List.replicate N.toNat 1) := by
  unfold boxcar
  rw [if_neg (not_lt.2 h)]
  exact ⟨rfl, rfl⟩

/-- C10 witness at `N = 3` with the two flag values: both calls return the
all-ones sequence of length 3. -/
theorem boxcar_ignores_sym_witness :
    boxcar 3 true = boxcar 3 false ∧ boxcar 3 true = some (List.replicate (3 : ℤ).toNat 1) :=
  boxcar_ignores_sym 3 (by norm_num) true false

theorem zipWith_map_same {α β γ δ : Type} (k : β → γ → δ) (f : α → β) (g : α → γ) :
    ∀ l : List α, List.zipWith k (l.map f) (l.map g) = l.map fun x => k (f x) (g x)
  | [] => rfl
  | a :: l => by simp only [List.map_cons, List.zipWith_cons_cons, zipWith_map_same k f g l]

/-- C8: the Hann-Poisson window is the elementwise product of the Hann window
and the Exponential window taken at the same length, symmetry flag and decay
parameter. -/
theorem hannpoisson_eq_hann_mul_exponential (N : ℤ) (sym : Bool) (alpha : ℝ) :
    hannpoisson N sym alpha = List.zipWith (· * ·) (hann N sym) (exponential N sym alpha) := by
  unfold hannpoisson hann exponential
  rw [zipWith_map_same]
  apply List.map_congr_left
  intro n _
  unfold hannpoissonF hannF exponentialF
  have hc : (2 : ℝ) * π * (n : ℝ) / ((effAdd N sym : ℤ) : ℝ)
      = π * (n : ℝ) / (((effAdd N sym : ℤ) : ℝ) / 2) := by
    rw [div_div_eq_mul_div]; ring
  rw [hc]
  ring

/-- C7 counterexample: at `N = 1` with `symmetric = False` the Hann
evaluator's effective denominator is 1, not 0, and the single output sample
is the finite value 0 — the claim names the wrong flag value. -/
theorem hann_length_one_periodic_finite :
    effAdd 1 false = 1 ∧ hannIEEE 1 false = [some 0] := by
  refine ⟨rfl, ?_⟩
  unfold hannIEEE
  rw [effAdd_false, show arange 1 = [0] from rfl]
  simp [fdivF]

/-- C7 amended: under the additive length form it is `N = 1` with
`symmetric = True` that makes the effective denominator 0, and there the
division produces a non-finite sample (the Hann evaluator returns one
non-finite value); `N = 1` in periodic mode has denominator 1 and stays
finite. -/
theorem hann_length_one_symmetric_nonfinite :
    effAdd 1 true = 0 ∧ hannIEEE 1 true = [none] := by
  refine ⟨rfl, ?_⟩
  unfold hannIEEE
  rw [effAdd_true, show arange 1 = [0] from rfl]
  simp [fdivF]

/-- C6 counterexample: Tukey with `alpha = 0` at `N = 4` (periodic) has first
sample exactly 0, which is farther than `1e-9` from the Boxcar value 1: the
flat region `|n - center| < 0 * center` is empty, so `alpha = 0` does not
reduce Tukey to Boxcar. -/
theorem tukey_alpha_zero_not_boxcar :
    (tukey 4 false 0)[0]? = some 0 ∧ (1e-9 : ℝ) < |(0 : ℝ) - 1| := by
  constructor
  · unfold tukey
    rw [effAdd_false, getElem?_map_arange (by norm_num)]
    unfold tukeyF
    rw [if_neg (by rw [zero_mul]; exact not_lt.2 (abs_nonneg _))]
    norm_num
  · norm_num

/-- C6 amended: Tukey with `alpha = 0` has an empty flat region and its taper
formula collapses to the raised cosine: `tukey N false 0 = hann N false` for
every `N ≥ 1` (it reduces to the periodic Hann window, not to Boxcar). -/
theorem tukey_alpha_zero_eq_hann (N : ℤ) (h : 1 ≤ N) :
    tukey N false 0 = hann N false := by
  unfold tukey hann
  rw [effAdd_false]
  apply List.map_congr_left
  intro n _
  unfold tukeyF hannF
  have hN : ((N : ℤ) : ℝ) ≠ 0 := by
    have : (0 : ℝ) < (N : ℝ) := by exact_mod_cast h
    positivity
  rw [if_neg (by rw [zero_mul]; exact not_lt.2 (abs_nonneg _))]
  have harg : π * (|(n : ℝ) - ((N : ℤ) : ℝ) / 2| - 0 * (((N : ℤ) : ℝ) / 2))
      / ((1 - 0) * (((N : ℤ) : ℝ) / 2))
      = π * |(n : ℝ) - ((N : ℤ) : ℝ) / 2| / (((N : ℤ) : ℝ) / 2) := by
    ring
  rw [harg]
  rcases abs_cases ((n : ℝ) - ((N : ℤ) : ℝ) / 2) with ⟨he, _⟩ | ⟨he, _⟩
  · rw [he, show π * ((n : ℝ) - ((N : ℤ) : ℝ) / 2) / (((N : ℤ) : ℝ) / 2)
        = 2 * π * (n : ℝ) / ((N : ℤ) : ℝ) - π by field_simp; ring,
      ← Real.cos_neg, neg_sub, Real.cos_pi_sub]
    ring
  · rw [he, show π * (-((n : ℝ) - ((N : ℤ) : ℝ) / 2)) / (((N : ℤ) : ℝ) / 2)
        = π - 2 * π * (n : ℝ) / ((N : ℤ) : ℝ) by field_simp; ring,
      Real.cos_pi_sub]
    ring

/-- C6 amended witness at `N = 4`: the periodic Tukey window with `alpha = 0`
coincides with the periodic Hann window. -/
theorem tukey_alpha_zero_eq_hann_witness : tukey 4 false 0 = hann 4 false :=
  tukey_alpha_zero_eq_hann 4 (by norm_num)

/-! Periodic mode as a truncation of symmetric mode (claim C2): for each
family the two calls resolve to the same effective length, so the periodic
window is literally a prefix of the next longer symmetric window. -/

theorem boxcar_periodic (N : ℤ) (h : 0 ≤ N) :
    ∃ p s, boxcar N false = some p ∧ boxcar (N + 1) true = some s ∧ p = s.take N.toNat := by
  unfold boxcar
  rw [if_neg (not_lt.2 h), if_neg (by omega)]
  refine ⟨_, _, rfl, rfl, ?_⟩
  rw [List.take_replicate]
  congr 1
  omega

theorem bartlett_periodic (N : ℤ) (h : 0 ≤ N) :
    bartlett N false = (bartlett (N + 1) true).take N.toNat := by
  unfold bartlett
  rw [effAdd_false, effAdd_true, show N + 1 - 1 = N by ring, map_arange_take h]

theorem barthann_periodic (N : ℤ) (h : 0 ≤ N) :
    barthann N false = (barthann (N + 1) true).take N.toNat := by
  unfold barthann
  rw [effAdd_false, effAdd_true, show N + 1 - 1 = N by ring, map_arange_take h]

theorem parzen_periodic (N : ℤ) (h : 0 ≤ N) :
    ∃ p s, parzen N false = some p ∧ parzen (N + 1) true = some s ∧ p = s.take N.toNat := by
  unfold parzen
  rw [if_neg (not_lt.2 h), if_neg (by omega)]
  refine ⟨_, _, rfl, rfl, ?_⟩
  rw [pyInt_true, pyInt_false, show N - 0 = N by ring, show N + 1 - 1 = N by ring,
    map_arange_take h]

theorem welch_periodic (N : ℤ) (h : 0 ≤ N) :
    welch N false = (welch (N + 1) true).take N.toNat := by
  unfold welch
  have hf : welchF (N + 1) true = welchF N false := by
    funext n
    unfold welchF
    norm_num [pyInt]
  rw [hf, map_arange_take h]

theorem cosine_periodic (N : ℤ) (h : 0 ≤ N) :
    cosine N false = (cosine (N + 1) true).take N.toNat := by
  unfold cosine
  rw [show pyInt (!false) = 1 from rfl, show pyInt (!true) = 0 from rfl,
    show N + 1 + 0 = N + 1 by ring, map_arange_take h]

theorem bohman_periodic (N : ℤ) (h : 0 ≤ N) :
    bohman N false = (bohman (N + 1) true).take N.toNat := by
  unfold bohman
  rw [effAdd_false, effAdd_true, show N + 1 - 1 = N by ring, map_arange_take h]

theorem lanczos_periodic (N : ℤ) (h : 1 ≤ N) :
    ∃ p s, lanczos N false = some p ∧ lanczos (N + 1) true = some s ∧ p = s.take N.toNat := by
  unfold lanczos
  rw [effAdd_false, effAdd_true, show N + 1 - 1 = N by ring]
  have h0 : 0 ≤ Int.fdiv N 2 := Int.fdiv_nonneg (by omega) (by norm_num)
  have h2 : Int.fdiv N 2 < N := by
    rw [Int.fdiv_eq_ediv _ (by norm_num)]; omega
  rw [pySet_eq_some 1 h0 (by rw [List.length_map, length_arange]; omega),
    pySet_eq_some 1 h0 (by rw [List.length_map, length_arange]; omega)]
  refine ⟨_, _, rfl, rfl, ?_⟩
  rw [List.set_take, map_arange_take (by omega)]

theorem hann_periodic (N : ℤ) (h : 0 ≤ N) :
    hann N false = (hann (N + 1) true).take N.toNat := by
  unfold hann
  rw [effAdd_false, effAdd_true, show N + 1 - 1 = N by ring, map_arange_take h]

theorem hamming_periodic (N : ℤ) (h : 0 ≤ N) :
    hamming N false = (hamming (N + 1) true).take N.toNat := by
  unfold hamming
  rw [effAdd_false, effAdd_true, show N + 1 - 1 = N by ring, map_arange_take h]

theorem blackman_periodic (N : ℤ) (h : 0 ≤ N) :
    blackman N false = (blackman (N + 1) true).take N.toNat := by
  unfold blackman
  rw [effAdd_false, effAdd_true, show N + 1 - 1 = N by ring, map_arange_take h]

theorem blackmanharris_periodic (N : ℤ) (h : 0 ≤ N) :
    blackmanharris N false = (blackmanharris (N + 1) true).take N.toNat := by
  unfold blackmanharris
  rw [effAdd_false, effAdd_true, show N + 1 - 1 = N by ring, map_arange_take h]

theorem blackmannuttall_periodic (N : ℤ) (h : 0 ≤ N) :
    blackmannuttall N false = (blackmannuttall (N + 1) true).take N.toNat := by
  unfold blackmannuttall
  rw [effAdd_false, effAdd_true, show N + 1 - 1 = N by ring, map_arange_take h]

theorem kaiserbessel_periodic (N : ℤ) (h : 0 ≤ N) :
    kaiserbessel N false = (kaiserbessel (N + 1) true).take N.toNat := by
  unfold kaiserbessel
  rw [pyInt_true, pyInt_false, show N - 0 = N by ring, show N + 1 - 1 = N by ring,
    map_arange_take h]

theorem flattop_periodic (N : ℤ) (h : 0 ≤ N) :
    flattop N false = (flattop (N + 1) true).take N.toNat := by
  unfold flattop
  rw [effAdd_false, effAdd_true, show N + 1 - 1 = N by ring, map_arange_take h]

theorem exponential_periodic (N : ℤ) (alpha : ℝ) (h : 0 ≤ N) :
    exponential N false alpha = (exponential (N + 1) true alpha).take N.toNat := by
  unfold exponential
  rw [effAdd_false, effAdd_true, show N + 1 - 1 = N by ring, map_arange_take h]

theorem gaussian_periodic (N : ℤ) (std : ℝ) (h : 0 ≤ N) :
    gaussian N false std = (gaussian (N + 1) true std).take N.toNat := by
  unfold gaussian
  rw [effAdd_false, effAdd_true, show N + 1 - 1 = N by ring, map_arange_take h]

theorem hannpoisson_periodic (N : ℤ) (alpha : ℝ) (h : 0 ≤ N) :
    hannpoisson N false alpha = (hannpoisson (N + 1) true alpha).take N.toNat := by
  unfold hannpoisson
  rw [effAdd_false, effAdd_true, show N + 1 - 1 = N by ring, map_arange_take h]

theorem tukey_periodic (N : ℤ) (alpha : ℝ) (h : 0 ≤ N) :
    tukey N false alpha = (tukey (N + 1) true alpha).take N.toNat := by
  unfold tukey
  rw [effAdd_false, effAdd_true, show N + 1 - 1 = N by ring, map_arange_take h]

/-- C2: for every family in the catalog and every `N ≥ 1`, the periodic-mode
output `generate(N, false)` equals the first `N` samples of the same family's
symmetric-mode output `generate(N+1, true)` — exactly, in the real-number
semantics (so in particular within any floating-point tolerance). -/
theorem periodic_eq_take_symmetric :
    ∀ g ∈ catalog, ∀ N : ℤ, 1 ≤ N →
      ∃ p s, g N false = some p ∧ g (N + 1) true = some s ∧ p = s.take N.toNat := by
  intro g hg N hN
  have h0 : (0 : ℤ) ≤ N := by omega
  simp only [catalog, List.mem_cons, List.not_mem_nil, or_false] at hg
  rcases hg with rfl | rfl | rfl | rfl | rfl | rfl | rfl | rfl | rfl | rfl | rfl | rfl | rfl |
    rfl | rfl | rfl | rfl | rfl | rfl
  · exact boxcar_periodic N h0
  · exact ⟨_, _, rfl, rfl, bartlett_periodic N h0⟩
  · exact ⟨_, _, rfl, rfl, barthann_periodic N h0⟩
  · exact parzen_periodic N h0
  · exact ⟨_, _, rfl, rfl, welch_periodic N h0⟩
  · exact ⟨_, _, rfl, rfl, cosine_periodic N h0⟩
  · exact ⟨_, _, rfl, rfl, bohman_periodic N h0⟩
  · exact lanczos_periodic N hN
  · exact ⟨_, _, rfl, rfl, hann_periodic N h0⟩
  · exact ⟨_, _, rfl, rfl, hamming_periodic N h0⟩
  · exact ⟨_, _, rfl, rfl, blackman_periodic N h0⟩
  · exact ⟨_, _, rfl, rfl, blackmanharris_periodic N h0⟩
  · exact ⟨_, _, rfl, rfl, blackmannuttall_periodic N h0⟩
  · exact ⟨_, _, rfl, rfl, kaiserbessel_periodic N h0⟩
  · exact ⟨_, _, rfl, rfl, flattop_periodic N h0⟩
  · exact ⟨_, _, rfl, rfl, exponential_periodic N 1.0 h0⟩
  · exact ⟨_, _, rfl, rfl, gaussian_periodic N 0.25 h0⟩
  · exact ⟨_, _, rfl, rfl, hannpoisson_periodic N 1.0 h0⟩
  · exact ⟨_, _, rfl, rfl, tukey_periodic N 0.5 h0⟩

/-- C2 witness: the Boxcar family at `N = 3` — the periodic window is the
first three samples of the length-4 symmetric window. -/
theorem periodic_eq_take_symmetric_witness :
    ∃ p s, boxcar 3 false = some p ∧ boxcar (3 + 1) true = some s ∧ p = s.take (3 : ℤ).toNat :=
  periodic_eq_take_symmetric boxcar (by unfold catalog; exact List.mem_cons_self _ _)
    3 (by norm_num)

/-! Mirror-symmetry of the sample formulas (claim C3): each harmonic of a
cosine-sum window is invariant under `n ↦ M - n`, and the centred families
depend only on `|n - center|`. -/

theorem cos_flip_two {M x : ℝ} (hM : M ≠ 0) :
    Real.cos (2 * π * (M - x) / M) = Real.cos (2 * π * x / M) := by
  rw [show 2 * π * (M - x) / M = ((1 : ℤ) : ℝ) * (2 * π) - 2 * π * x / M by
    push_cast; field_simp; ring]
  exact Real.cos_int_mul_two_pi_sub _ 1

theorem cos_flip_four {M x : ℝ} (hM : M ≠ 0) :
    Real.cos (4 * π * (M - x) / M) = Real.cos (4 * π * x / M) := by
  rw [show 4 * π * (M - x) / M = ((2 : ℤ) : ℝ) * (2 * π) - 4 * π * x / M by
    push_cast; field_simp; ring]
  exact Real.cos_int_mul_two_pi_sub _ 2

theorem cos_flip_six {M x : ℝ} (hM : M ≠ 0) :
    Real.cos (6 * π * (M - x) / M) = Real.cos (6 * π * x / M) := by
  rw [show 6 * π * (M - x) / M = ((3 : ℤ) : ℝ) * (2 * π) - 6 * π * x / M by
    push_cast; field_simp; ring]
  exact Real.cos_int_mul_two_pi_sub _ 3

theorem cos_flip_eight {M x : ℝ} (hM : M ≠ 0) :
    Real.cos (8 * π * (M - x) / M) = Real.cos (8 * π * x / M) := by
  rw [show 8 * π * (M - x) / M = ((4 : ℤ) : ℝ) * (2 * π) - 8 * π * x / M by
    push_cast; field_simp; ring]
  exact Real.cos_int_mul_two_pi_sub _ 4

theorem sin_flip {M y : ℝ} (hM : M ≠ 0) :
    Real.sin (π * (M - y) / M) = Real.sin (π * y / M) := by
  rw [show π * (M - y) / M = π - π * y / M by field_simp; ring]
  exact Real.sin_pi_sub _

theorem cos_half_flip {M x : ℝ} (hM : M ≠ 0) :
    Real.cos (π * (2 * M - x) / M) = Real.cos (π * x / M) := by
  rw [show π * (2 * M - x) / M = 2 * π - π * x / M by field_simp; ring]
  exact Real.cos_two_pi_sub _

theorem boxcar_palindrome (N : ℤ) (h : 2 ≤ N) :
    ∃ w, boxcar N true = some w ∧ isPalindrome w := by
  unfold boxcar
  rw [if_neg (by omega)]
  refine ⟨_, rfl, ?_⟩
  intro i hi
  rw [List.length_replicate] at hi ⊢
  rw [List.getElem?_replicate_of_lt hi, List.getElem?_replicate_of_lt (by omega)]

theorem bartlett_palindrome (N : ℤ) (_h : 2 ≤ N) : isPalindrome (bartlett N true) := by
  unfold bartlett
  rw [effAdd_true]
  apply isPalindrome_map_arange
  intro n h0 hn
  unfold bartlettF
  simp only [show ((N - 1 - n : ℤ) : ℝ) - ((N - 1 : ℤ) : ℝ) / 2
      = -((n : ℝ) - ((N - 1 : ℤ) : ℝ) / 2) by push_cast; ring, abs_neg]

theorem hann_palindrome (N : ℤ) (h : 2 ≤ N) : isPalindrome (hann N true) := by
  unfold hann
  rw [effAdd_true]
  apply isPalindrome_map_arange
  intro n h0 hn
  unfold hannF
  have hM : ((N - 1 : ℤ) : ℝ) ≠ 0 := by exact_mod_cast (by omega : (N - 1 : ℤ) ≠ 0)
  rw [show ((N - 1 - n : ℤ) : ℝ) = ((N - 1 : ℤ) : ℝ) - (n : ℝ) by push_cast; ring,
    cos_flip_two hM]

theorem hamming_palindrome (N : ℤ) (h : 2 ≤ N) : isPalindrome (hamming N true) := by
  unfold hamming
  rw [effAdd_true]
  apply isPalindrome_map_arange
  intro n h0 hn
  unfold hammingF
  have hM : ((N - 1 : ℤ) : ℝ) ≠ 0 := by exact_mod_cast (by omega : (N - 1 : ℤ) ≠ 0)
  rw [show ((N - 1 - n : ℤ) : ℝ) = ((N - 1 : ℤ) : ℝ) - (n : ℝ) by push_cast; ring,
    cos_flip_two hM]

theorem blackman_palindrome (N : ℤ) (h : 2 ≤ N) : isPalindrome (blackman N true) := by
  unfold blackman
  rw [effAdd_true]
  apply isPalindrome_map_arange
  intro n h0 hn
  unfold blackmanF
  have hM : ((N - 1 : ℤ) : ℝ) ≠ 0 := by exact_mod_cast (by omega : (N - 1 : ℤ) ≠ 0)
  rw [show ((N - 1 - n : ℤ) : ℝ) = ((N - 1 : ℤ) : ℝ) - (n : ℝ) by push_cast; ring,
    cos_flip_two hM, cos_flip_four hM]

theorem blackmanharris_palindrome (N : ℤ) (h : 2 ≤ N) :
    isPalindrome (blackmanharris N true) := by
  unfold blackmanharris
  rw [effAdd_true]
  apply isPalindrome_map_arange
  intro n h0 hn
  unfold blackmanharrisF
  have hM : ((N - 1 : ℤ) : ℝ) ≠ 0 := by exact_mod_cast (by omega : (N - 1 : ℤ) ≠ 0)
  rw [show ((N - 1 - n : ℤ) : ℝ) = ((N - 1 : ℤ) : ℝ) - (n : ℝ) by push_cast; ring,
    cos_flip_two hM, cos_flip_four hM, cos_flip_six hM]

theorem blackmannuttall_palindrome (N : ℤ) (h : 2 ≤ N) :
    isPalindrome (blackmannuttall N true) := by
  unfold blackmannuttall
  rw [effAdd_true]
  apply isPalindrome_map_arange
  intro n h0 hn
  unfold blackmannuttallF
  have hM : ((N - 1 : ℤ) : ℝ) ≠ 0 := by exact_mod_cast (by omega : (N - 1 : ℤ) ≠ 0)
  rw [show ((N - 1 - n : ℤ) : ℝ) = ((N - 1 : ℤ) : ℝ) - (n : ℝ) by push_cast; ring,
    cos_flip_two hM, cos_flip_four hM, cos_flip_six hM]

theorem kaiserbessel_palindrome (N : ℤ) (h : 2 ≤ N) :
    isPalindrome (kaiserbessel N true) := by
  unfold kaiserbessel
  rw [pyInt_true]
  apply isPalindrome_map_arange
  intro n h0 hn
  unfold kaiserbesselF
  have hM : ((N - 1 : ℤ) : ℝ) ≠ 0 := by exact_mod_cast (by omega : (N - 1 : ℤ) ≠ 0)
  rw [show ((N - 1 - n : ℤ) : ℝ) = ((N - 1 : ℤ) : ℝ) - (n : ℝ) by push_cast; ring,
    cos_flip_two hM, cos_flip_four hM, cos_flip_six hM]

theorem flattop_palindrome (N : ℤ) (h : 2 ≤ N) : isPalindrome (flattop N true) := by
  unfold flattop
  rw [effAdd_true]
  apply isPalindrome_map_arange
  intro n h0 hn
  unfold flattopF
  have hM : ((N - 1 : ℤ) : ℝ) ≠ 0 := by exact_mod_cast (by omega : (N - 1 : ℤ) ≠ 0)
  rw [show ((N - 1 - n : ℤ) : ℝ) = ((N - 1 : ℤ) : ℝ) - (n : ℝ) by push_cast; ring,
    cos_flip_two hM, cos_flip_four hM, cos_flip_six hM, cos_flip_eight hM]

theorem barthann_palindrome (N : ℤ) (h : 2 ≤ N) : isPalindrome (barthann N true) := by
  unfold barthann
  rw [effAdd_true]
  apply isPalindrome_map_arange
  intro n h0 hn
  unfold barthannF
  have hM : ((N - 1 : ℤ) : ℝ) ≠ 0 := by exact_mod_cast (by omega : (N - 1 : ℤ) ≠ 0)
  have habs : ((N - 1 - n : ℤ) : ℝ) / ((N - 1 : ℤ) : ℝ) - 0.5
      = -((n : ℝ) / ((N - 1 : ℤ) : ℝ) - 0.5) := by
    rw [show ((N - 1 - n : ℤ) : ℝ) = ((N - 1 : ℤ) : ℝ) - (n : ℝ) by push_cast; ring,
      sub_div, div_self hM]
    ring
  rw [habs, abs_neg,
    show ((N - 1 - n : ℤ) : ℝ) = ((N - 1 : ℤ) : ℝ) - (n : ℝ) by push_cast; ring,
    cos_flip_two hM]

theorem parzen_palindrome (N : ℤ) (h : 2 ≤ N) :
    ∃ w, parzen N true = some w ∧ isPalindrome w := by
  unfold parzen
  rw [if_neg (by omega), pyInt_true]
  refine ⟨_, rfl, ?_⟩
  apply isPalindrome_map_arange
  intro n h0 hn
  simp only [parzenF]
  have hM : ((N - 1 : ℤ) : ℝ) ≠ 0 := by exact_mod_cast (by omega : (N - 1 : ℤ) ≠ 0)
  have ht : 2 * ((N - 1 - n : ℤ) : ℝ) / ((N - 1 : ℤ) : ℝ) - 1
      = -(2 * (n : ℝ) / ((N - 1 : ℤ) : ℝ) - 1) := by
    rw [show ((N - 1 - n : ℤ) : ℝ) = ((N - 1 : ℤ) : ℝ) - (n : ℝ) by push_cast; ring,
      mul_sub, sub_div,
      show (2 : ℝ) * ((N - 1 : ℤ) : ℝ) / ((N - 1 : ℤ) : ℝ) = 2 by
        rw [mul_div_assoc, div_self hM, mul_one]]
    ring
  simp only [ht, abs_neg, neg_sq]

theorem cosine_palindrome (N : ℤ) (h : 2 ≤ N) : isPalindrome (cosine N true) := by
  unfold cosine
  rw [show pyInt (!true) = 0 from rfl, show N + 0 = N by ring]
  apply isPalindrome_map_arange
  intro n h0 hn
  unfold cosineF
  have hM : (N : ℝ) ≠ 0 := by exact_mod_cast (by omega : N ≠ 0)
  rw [show ((N - 1 - n : ℤ) : ℝ) + 0.5 = (N : ℝ) - ((n : ℝ) + 0.5) by push_cast; ring,
    sin_flip hM]

theorem bohman_palindrome (N : ℤ) (h : 2 ≤ N) : isPalindrome (bohman N true) := by
  unfold bohman
  rw [effAdd_true]
  apply isPalindrome_map_arange
  intro n h0 hn
  unfold bohmanF
  have hM : ((N - 1 : ℤ) : ℝ) ≠ 0 := by exact_mod_cast (by omega : (N - 1 : ℤ) ≠ 0)
  have ht : ((N - 1 - n : ℤ) : ℝ) / (((N - 1 : ℤ) : ℝ) / 2) - 1
      = -((n : ℝ) / (((N - 1 : ℤ) : ℝ) / 2) - 1) := by
    rw [show ((N - 1 - n : ℤ) : ℝ) = ((N - 1 : ℤ) : ℝ) - (n : ℝ) by push_cast; ring,
      sub_div,
      show ((N - 1 : ℤ) : ℝ) / (((N - 1 : ℤ) : ℝ) / 2) = 2 by
        rw [div_div_eq_mul_div, mul_comm, mul_div_assoc, div_self hM, mul_one]]
    ring
  simp only [ht, abs_neg]

theorem exponential_palindrome (N : ℤ) (alpha : ℝ) (_h : 2 ≤ N) :
    isPalindrome (exponential N true alpha) := by
  unfold exponential
  rw [effAdd_true]
  apply isPalindrome_map_arange
  intro n h0 hn
  unfold exponentialF
  simp only [show ((N - 1 - n : ℤ) : ℝ) - ((N - 1 : ℤ) : ℝ) / 2
      = -((n : ℝ) - ((N - 1 : ℤ) : ℝ) / 2) by push_cast; ring, abs_neg]

theorem gaussian_palindrome (N : ℤ) (std : ℝ) (_h : 2 ≤ N) :
    isPalindrome (gaussian N true std) := by
  unfold gaussian
  rw [effAdd_true]
  apply isPalindrome_map_arange
  intro n h0 hn
  unfold gaussianF
  simp only [show ((N - 1 - n : ℤ) : ℝ) - ((N - 1 : ℤ) : ℝ) / 2
      = -((n : ℝ) - ((N - 1 : ℤ) : ℝ) / 2) by push_cast; ring, neg_div, neg_sq]

theorem hannpoisson_palindrome (N : ℤ) (alpha : ℝ) (h : 2 ≤ N) :
    isPalindrome (hannpoisson N true alpha) := by
  unfold hannpoisson
  rw [effAdd_true]
  apply isPalindrome_map_arange
  intro n h0 hn
  unfold hannpoissonF
  have hM0 : ((N - 1 : ℤ) : ℝ) ≠ 0 := by exact_mod_cast (by omega : (N - 1 : ℤ) ≠ 0)
  have hM : (((N - 1 : ℤ) : ℝ) / 2) ≠ 0 := div_ne_zero hM0 two_ne_zero
  have habs : |((N - 1 - n : ℤ) : ℝ) - ((N - 1 : ℤ) : ℝ) / 2|
      = |(n : ℝ) - ((N - 1 : ℤ) : ℝ) / 2| := by
    rw [show ((N - 1 - n : ℤ) : ℝ) - ((N - 1 : ℤ) : ℝ) / 2
        = -((n : ℝ) - ((N - 1 : ℤ) : ℝ) / 2) by push_cast; ring, abs_neg]
  simp only [habs]
  rw [show ((N - 1 - n : ℤ) : ℝ) = 2 * (((N - 1 : ℤ) : ℝ) / 2) - (n : ℝ) by push_cast; ring,
    cos_half_flip hM]

theorem tukey_palindrome (N : ℤ) (alpha : ℝ) (_h : 2 ≤ N) :
    isPalindrome (tukey N true alpha) := by
  unfold tukey
  rw [effAdd_true]
  apply isPalindrome_map_arange
  intro n h0 hn
  unfold tukeyF
  simp only [show ((N - 1 - n : ℤ) : ℝ) - ((N - 1 : ℤ) : ℝ) / 2
      = -((n : ℝ) - ((N - 1 : ℤ) : ℝ) / 2) by push_cast; ring, abs_neg]

/-- C3 counterexample: the symmetric Welch window at `N = 3` has samples 8/9
and 0 at the mirrored indices 0 and 2, and the symmetric Lanczos window at
`N = 4` has sample 1 at index 1 (the overridden tap) but `sin(π/3)/(π/3+1e-12)`
(≈ 0.827) at the mirrored index 2: both families violate the palindrome
property by far more than the stated `1e-9` tolerance. -/
theorem symmetric_not_palindrome_welch_lanczos :
    ((welch 3 true)[0]? = some (8 / 9) ∧ (welch 3 true)[2]? = some 0 ∧
      (1e-9 : ℝ) < |8 / 9 - (0 : ℝ)|) ∧
    ((lanczos 4 true).bind (fun w => w[1]?) = some 1 ∧
      (lanczos 4 true).bind (fun w => w[2]?) = some (Real.sin (π / 3) / (π / 3 + 1e-12)) ∧
      (1e-9 : ℝ) < |1 - Real.sin (π / 3) / (π / 3 + 1e-12)|) := by
  have h4 : lanczos 4 true = some (((arange 4).map (lanczosF 3)).set 1 1) := by
    unfold lanczos
    rw [effAdd_true, show (4 : ℤ) - 1 = 3 by norm_num, show Int.fdiv 3 2 = 1 from rfl,
      pySet_eq_some 1 (by norm_num) (by rw [List.length_map, length_arange]; norm_num)]
    rfl
  refine ⟨⟨?_, ?_, by rw [sub_zero, abs_of_nonneg (by norm_num : (0 : ℝ) ≤ 8 / 9)]; norm_num⟩,
    ?_, ?_, ?_⟩
  · unfold welch
    rw [getElem?_map_arange (by norm_num)]
    unfold welchF
    norm_num [pyInt]
  · unfold welch
    rw [getElem?_map_arange (by norm_num)]
    unfold welchF
    norm_num [pyInt]
  · rw [h4, Option.some_bind]
    exact List.getElem?_set_self (by rw [List.length_map, length_arange]; norm_num)
  · rw [h4, Option.some_bind, List.getElem?_set_ne (by norm_num),
      getElem?_map_arange (by norm_num)]
    simp only [lanczosF]
    rw [show π * (2 * ((((2 : ℕ) : ℤ)) : ℝ) / ((3 : ℤ) : ℝ) - 1) = π / 3 by push_cast; ring]
  · have h3 : Real.sqrt 3 < 1.74 := by
      nlinarith [Real.sq_sqrt (by norm_num : (0 : ℝ) ≤ 3), Real.sqrt_nonneg 3]
    have hs0 : 0 ≤ Real.sin (π / 3) := by
      rw [Real.sin_pi_div_three]; positivity
    have hd1 : (1 : ℝ) ≤ π / 3 + 1e-12 := by
      nlinarith [Real.pi_gt_three]
    have hb : Real.sin (π / 3) / (π / 3 + 1e-12) ≤ Real.sin (π / 3) := div_le_self hs0 hd1
    have hlt : Real.sin (π / 3) < 0.87 := by
      rw [Real.sin_pi_div_three]; nlinarith [h3]
    calc (1e-9 : ℝ) < 1 - 0.87 := by norm_num
      _ < 1 - Real.sin (π / 3) / (π / 3 + 1e-12) := by linarith
      _ ≤ |1 - Real.sin (π / 3) / (π / 3 + 1e-12)| := le_abs_self _

/-- C3 amended: for every family except Welch and Lanczos, the symmetric-mode
output of length `N ≥ 2` is a palindrome — exactly, in the real-number
semantics (hence in particular within the stated `1e-9` tolerance). Welch's
symmetric centre is `(N-2)/2` and Lanczos's overridden tap `(N-1)//2` is
off-centre for even `N`, so those two families are excluded. -/
theorem symmetric_windows_palindrome :
    ∀ g ∈ palindromicFamilies, ∀ N : ℤ, 2 ≤ N →
      ∃ w, g N true = some w ∧ isPalindrome w := by
  intro g hg N hN
  simp only [palindromicFamilies, List.mem_cons, List.not_mem_nil, or_false] at hg
  rcases hg with rfl | rfl | rfl | rfl | rfl | rfl | rfl | rfl | rfl | rfl | rfl | rfl | rfl |
    rfl | rfl | rfl | rfl
  · exact boxcar_palindrome N hN
  · exact ⟨_, rfl, bartlett_palindrome N hN⟩
  · exact ⟨_, rfl, barthann_palindrome N hN⟩
  · exact parzen_palindrome N hN
  · exact ⟨_, rfl, cosine_palindrome N hN⟩
  · exact ⟨_, rfl, bohman_palindrome N hN⟩
  · exact ⟨_, rfl, hann_palindrome N hN⟩
  · exact ⟨_, rfl, hamming_palindrome N hN⟩
  · exact ⟨_, rfl, blackman_palindrome N hN⟩
  · exact ⟨_, rfl, blackmanharris_palindrome N hN⟩
  · exact ⟨_, rfl, blackmannuttall_palindrome N hN⟩
  · exact ⟨_, rfl, kaiserbessel_palindrome N hN⟩
  · exact ⟨_, rfl, flattop_palindrome N hN⟩
  · exact ⟨_, rfl, exponential_palindrome N 1.0 hN⟩
  · exact ⟨_, rfl, gaussian_palindrome N 0.25 hN⟩
  · exact ⟨_, rfl, hannpoisson_palindrome N 1.0 hN⟩
  · exact ⟨_, rfl, tukey_palindrome N 0.5 hN⟩

/-- C3 amended witness: the symmetric Hann window at `N = 5` is a palindrome. -/
theorem symmetric_windows_palindrome_witness :
    ∃ w, some (hann 5 true) = some w ∧ isPalindrome w :=
  symmetric_windows_palindrome _
    (by unfold palindromicFamilies
        exact List.mem_cons_of_mem _ (List.mem_cons_of_mem _ (List.mem_cons_of_mem _
          (List.mem_cons_of_mem _ (List.mem_cons_of_mem _ (List.mem_cons_of_mem _
            (List.mem_cons_self _ _)))))))
    5 (by norm_num)

end Fourier
